import Mathlib

/-!
Verification of the spotlight viewer/server lifecycle manager and the
asynchronous issue-analysis coordination subsystem.

The development shallowly embeds three source files:
* `renumics/spotlight/backend/types.py` (`SpotlightApp`, `_update_issues`,
  `_on_issues_ready`) — the issue-analysis coordination;
* `renumics/spotlight/viewer.py` (`Viewer`, `_VIEWERS`, module-level
  `show`/`close`/`viewers`) — the viewer/registry lifecycle;
* `renumics/spotlight_plugins/core/huggingface_datasource.py`
  (`HuggingfaceDataSource.get_column_values`).

The `TaskManager` (`backend/tasks/task_manager.py`), the websocket
broadcaster (`backend/websockets.py`) and the uvicorn `Server` wrapper
(`server.py`) are collaborators whose sources are not part of the analysed
tree; they are modelled from the specification (sections 4.1, 4.2, 4.3) as
noted on each definition.
-/

/-- A data source handle as seen by the backend: an abstract identity plus
its dtype mapping (`table.dtype` in the source, abstracted to a `Nat`). -/
structure DataSource where
  uid : Nat
  dtype : Nat
deriving DecidableEq, Repr

/-- Analysis results are abstract; an issue is identified by a code. -/
abbrev Issue := Nat

/-- A background analysis task as held by the task manager.
`arg` records the arguments `(table, table.dtype)` passed to `find_issues`. -/
structure AnalysisTask where
  id : Nat
  name : String
  arg : DataSource × Nat
  cancelled : Bool
  done : Bool
deriving DecidableEq, Repr

/-- Modelled from the spec: `backend/tasks/task_manager.py` is not under the
analysed tree.  Per section 4.1 the manager keeps named tasks and enforces
at most one non-terminal task per name.  Tasks are stored most recent
first. -/
structure TaskManager where
  tasks : List AnalysisTask
  nextId : Nat
deriving DecidableEq, Repr

/-- Modelled from the spec (section 4.1): creating a task under `name`
cancels any not-yet-finished task of the same name.  A cancelled task's
future resolves to `CancelledError`, so "its result must never overwrite
state once superseded". -/
def cancelIfActive (name : String) (t : AnalysisTask) : AnalysisTask :=
  if t.name = name ∧ t.done = false then { t with cancelled := true } else t

/-- Modelled from the spec (section 4.1): `TaskManager.create_task` cancels
the previous non-terminal task of the same name and registers a fresh
pending task, returned together with the new manager state. -/
def TaskManager.create_task (tm : TaskManager) (name : String)
    (arg : DataSource × Nat) : TaskManager × AnalysisTask :=
  let t : AnalysisTask :=
    { id := tm.nextId, name := name, arg := arg, cancelled := false, done := false }
  ({ tasks := t :: tm.tasks.map (cancelIfActive name), nextId := tm.nextId + 1 }, t)

/-- Mark the task with the given id as finished (its future resolved). -/
def TaskManager.markDone (tm : TaskManager) (id : Nat) : TaskManager :=
  { tm with tasks := tm.tasks.map fun t => if t.id = id then { t with done := true } else t }

/-- Look up a task by id. -/
def TaskManager.findTask (tm : TaskManager) (id : Nat) : Option AnalysisTask :=
  tm.tasks.find? fun t => t.id = id

/-- Embeds `IssuesUpdatedMessage` from `backend/types.py`: the `type` field is the
constant `"issuesUpdated"`; `data` defaults to `None` and the source always
broadcasts it with the default. -/
structure IssuesMsg where
  data : Option (List Issue)
deriving DecidableEq, Repr

/-- Modelled from the spec: `backend/websockets.py` is not under the
analysed tree.  Per section 4.2 the manager tracks connected channels and
`broadcast` delivers a message to every registered channel (per-channel
FIFO: the message is appended to each channel's queue). -/
structure WebsocketMgr where
  channels : List (List IssuesMsg)
deriving DecidableEq, Repr

/-- Modelled from the spec (section 4.2): deliver `m` to every channel. -/
def WebsocketMgr.broadcast (wm : WebsocketMgr) (m : IssuesMsg) : WebsocketMgr :=
  { channels := wm.channels.map fun c => c ++ [m] }

/-- The state of `SpotlightApp` (from `backend/types.py`) that the analysed
methods touch: the current data source, the issues list, the task manager,
the optional websocket manager, and a log standing for the executor's
error reporting (an exception escaping a future's done-callback is logged
by the futures machinery; the log records the failing task's id). -/
structure SpotlightApp where
  dataSource : Option DataSource
  issues : List Issue
  taskManager : TaskManager
  websocketManager : Option WebsocketMgr
  errorLog : List Nat
deriving DecidableEq, Repr

/-- Embeds `if self.websocket_manager: self.websocket_manager.broadcast(msg)`. -/
def SpotlightApp.broadcastMsg (a : SpotlightApp) (m : IssuesMsg) : SpotlightApp :=
  match a.websocketManager with
  | some wm => { a with websocketManager := some (wm.broadcast m) }
  | none => a

/-- Embeds `SpotlightApp._update_issues` from `backend/types.py`: read the current
data source, clear `issues`, broadcast an `IssuesUpdatedMessage()` (data
`None`), stop if the data source is `None`, otherwise create the
`"update_issues"` task with arguments `(table, table.dtype)`. -/
def SpotlightApp.updateIssues (a : SpotlightApp) : SpotlightApp :=
  let table := a.dataSource
  let a := { a with issues := [] }
  let a := a.broadcastMsg { data := none }
  match table with
  | none => a
  | some table =>
    let tmNew := a.taskManager.create_task "update_issues" (table, table.dtype)
    { a with taskManager := tmNew.1 }

/-- The `data_source` setter from `backend/types.py`: store the new data
source, then run `_update_issues`. -/
def SpotlightApp.setDataSource (a : SpotlightApp) (ds : Option DataSource) : SpotlightApp :=
  SpotlightApp.updateIssues { a with dataSource := ds }

/-- Outcome of `future.result()` inside the done-callback. -/
inductive FutureOutcome where
  | ok (r : List Issue)
  | cancelledErr
  | failed (e : Nat)
deriving DecidableEq, Repr

/-- Embeds `_on_issues_ready` from `backend/types.py`: `self.issues =
future.result()` guarded by `except CancelledError: ...`; on success the
`else:` branch broadcasts `IssuesUpdatedMessage()`.  Any other exception
escapes the callback and is logged by the executor (modelled by
`errorLog`); `issues` is not assigned in that case. -/
def SpotlightApp.onIssuesReady (a : SpotlightApp) (o : FutureOutcome) : SpotlightApp :=
  match o with
  | .cancelledErr => a
  | .failed e => { a with errorLog := a.errorLog ++ [e] }
  | .ok r => SpotlightApp.broadcastMsg { a with issues := r } { data := none }

/-- Events driving one `SpotlightApp`: an assignment to `data_source`, or
the completion of the analysis future of the task with the given id
(`ok = false` means `find_issues` raised). -/
inductive AppEvent where
  | set (ds : Option DataSource)
  | complete (id : Nat) (ok : Bool)
deriving DecidableEq, Repr

/-- One scheduler step.  A completion event for an unknown or already
finished task is a no-op (such an event cannot occur: each future resolves
once).  Completing a pending task marks it done and runs the registered
done-callback `_on_issues_ready` with the future's outcome: a cancelled
(superseded) task resolves to `CancelledError`; otherwise the outcome is
the value of `find_issues` on the task's arguments (`fi`), or a failure. -/
def stepApp (fi : DataSource × Nat → List Issue) (a : SpotlightApp) :
    AppEvent → SpotlightApp
  | .set ds => a.setDataSource ds
  | .complete id ok =>
    match a.taskManager.findTask id with
    | none => a
    | some t =>
      if t.done then a
      else
        let a := { a with taskManager := a.taskManager.markDone id }
        let o : FutureOutcome :=
          if t.cancelled then .cancelledErr
          else if ok then .ok (fi t.arg) else .failed id
        a.onIssuesReady o

/-- Run a sequence of events. -/
def runApp (fi : DataSource × Nat → List Issue) (a : SpotlightApp)
    (es : List AppEvent) : SpotlightApp :=
  es.foldl (stepApp fi) a

/-- Embeds `SpotlightApp.__init__` (no data source, no issues, fresh task
manager), with the websocket manager optionally attached as during
application startup. -/
def initApp (wm : Option WebsocketMgr) : SpotlightApp :=
  { dataSource := none
    issues := []
    taskManager := { tasks := [], nextId := 0 }
    websocketManager := wm
    errorLog := [] }

/-- A task is non-terminal when neither finished nor cancelled. -/
def nonterminal (t : AnalysisTask) : Prop :=
  t.done = false ∧ t.cancelled = false

instance (t : AnalysisTask) : Decidable (nonterminal t) := by
  unfold nonterminal; infer_instance

/-- Modelled from the spec (section 4.3): `renumics/spotlight/server.py` is
not under the analysed tree.  The viewer drives the `Server` through
`start`, `stop`, `port` and `running`; `start` binds the listener,
resolving a requested port of `0` to a fresh ephemeral port, and sets
`running`; `stop` clears `running`.  `started` records that `start` ran. -/
structure SrvState where
  port : Nat
  running : Bool
  started : Bool
deriving DecidableEq, Repr

/-- The `Viewer` object from `viewer.py`: host, the requested port
(`none` stands for `"auto"`), and the exclusively owned optional server.
`vid` models Python object identity (membership in `_VIEWERS` and the
`self not in _VIEWERS` checks compare identities). -/
structure Viewer where
  vid : Nat
  host : String
  requestedPort : Option Nat
  server : Option SrvState
deriving DecidableEq, Repr

/-- Embeds `Viewer.port`: `if not self._server: return None; return
self._server.port`. -/
def Viewer.port (v : Viewer) : Option Nat :=
  v.server.map fun s => s.port

/-- Embeds `Viewer.running`: `self._server is not None and self._server.running`. -/
def Viewer.running (v : Viewer) : Bool :=
  match v.server with
  | some s => s.running
  | none => false

/-- The process-wide state the module-level code of `viewer.py` touches:
every `Viewer` object ever constructed (by identity), the `_VIEWERS`
registry holding identities in registration order, a fresh-identity
counter, the ephemeral-port source used when a server binds port `0`, and
a log of the ports of servers on which `stop()` ran (observing stops). -/
structure World where
  allViewers : List Viewer
  registry : List Nat
  nextVid : Nat
  nextEphemeral : Nat
  stopLog : List Nat
deriving DecidableEq, Repr

/-- Dereference a viewer identity. -/
def World.getViewer (w : World) (vid : Nat) : Option Viewer :=
  w.allViewers.find? fun v => v.vid = vid

/-- Mutate the viewer object with the given identity in place. -/
def World.setViewer (w : World) (vid : Nat) (f : Viewer → Viewer) : World :=
  { w with allViewers := w.allViewers.map fun v => if v.vid = vid then f v else v }

/-- Embeds `Viewer.__init__`: construct a fresh viewer with no server; it is not
registered yet.  Returns the world and the new viewer's identity. -/
def newViewer (w : World) (host : String) (requestedPort : Option Nat) :
    World × Nat :=
  ({ w with
      allViewers := w.allViewers ++
        [{ vid := w.nextVid, host := host, requestedPort := requestedPort, server := none }]
      nextVid := w.nextVid + 1 }, w.nextVid)

/-- Embeds the port binding of `Server.start` (modelled from the spec,
section 4.3): a requested port of `0` resolves to a fresh ephemeral port,
any other requested port binds as is.  Returns the bound port and the
world with the ephemeral source advanced. -/
def bindPort (w : World) (reqPort : Nat) : Nat × World :=
  if reqPort = 0 then (w.nextEphemeral, { w with nextEphemeral := w.nextEphemeral + 1 })
  else (reqPort, w)

/-- Embeds `if self not in _VIEWERS: _VIEWERS.append(self)`. -/
def registerViewer (w : World) (vid : Nat) : World :=
  if vid ∈ w.registry then w else { w with registry := w.registry ++ [vid] }

/-- A freshly started server bound to port `p` (`running`, `started`). -/
def startedServer (p : Nat) : SrvState :=
  { port := p, running := true, started := true }

/-- Embeds the body of `Viewer._init_server` for the viewer `v` found for
`vid`: return if a server exists; otherwise create a `Server` on the
requested port (`0` for `"auto"`), `start()` it (binding resolves port `0`
to a fresh ephemeral port), and append `self` to `_VIEWERS` unless already
present. -/
def initServerGo (w : World) (vid : Nat) (v : Viewer) : World :=
  match v.server with
  | some _ => w
  | none =>
    registerViewer
      ((bindPort w (match v.requestedPort with | none => 0 | some p => p)).2.setViewer vid
        fun u =>
          { u with server := some (startedServer
              (bindPort w (match v.requestedPort with | none => 0 | some p => p)).1) })
      vid

/-- Embeds `Viewer._init_server` (dispatch on whether `self._server` is
already set; the work happens in `initServerGo`). -/
def initServer (w : World) (vid : Nat) : World :=
  match w.getViewer vid with
  | none => w
  | some v => initServerGo w vid v

/-- The shared removal-and-stop tail of `Viewer.close` (`close(wait=False)`
reaches it directly): if `self` is registered and owns a server, remove
`self` from `_VIEWERS`, `stop()` the server (logged by its bound port) and
drop the reference (`self._server = None`). -/
def closeNow (w : World) (vid : Nat) : World :=
  if vid ∈ w.registry then
    match (w.getViewer vid).bind Viewer.server with
    | none => w
    | some srv =>
      ({ w with
          registry := w.registry.erase vid
          stopLog := w.stopLog ++ [srv.port] }).setViewer vid
        fun u => { u with server := none }
  else w

/-- Embeds `Viewer.close(wait)`: no-op unless registered with a server; with
`wait`, `wait_for_frontend_disconnect()` runs first — `interrupted` tells
whether it is interrupted by `KeyboardInterrupt`, in which case
`close(wait=False)` runs before the interrupt is re-raised.  The returned
`Bool` is true when the call exits by re-raising the interrupt. -/
def closeFull (w : World) (vid : Nat) (wait interrupted : Bool) : World × Bool :=
  if vid ∈ w.registry then
    match (w.getViewer vid).bind Viewer.server with
    | none => (w, false)
    | some _ =>
      if wait ∧ interrupted then (closeNow w vid, true)
      else (closeNow w vid, false)
  else (w, false)

/-- The lifecycle effect of `Viewer.show`: `_init_server` (lazily binding
and registering), and — when the resolved `wait` flag is set — a final
`self.close(True)` after the clients disconnect (the uninterrupted case).
The dataset/layout/browser plumbing targets the backend application state
and is not part of the registry model. -/
def viewerShowRun (w : World) (vid : Nat) (wait : Bool) : World :=
  let w := initServer w vid
  if wait then closeNow w vid else w

/-- Embeds `viewers()`: `list(_VIEWERS)` — a snapshot of the registry. -/
def viewersFn (w : World) : List Nat :=
  w.registry

/-- The scan loop of module-level `show`: `for index, viewer in
enumerate(_VIEWERS): if viewer.port == port: viewer = _VIEWERS[index];
break`.  The accumulator is the Python variable `viewer`, rebound to each
element as the loop advances; on a match the loop breaks, otherwise the
variable keeps its last binding. -/
def scanLoop (w : World) (port : Nat) : List Nat → Option Nat → Option Nat
  | [], acc => acc
  | vid :: rest, _ =>
    if ((w.getViewer vid).bind Viewer.port) = some port then some vid
    else scanLoop w port rest (some vid)

/-- The `if not viewer: viewer = Viewer(host, port)` path of module-level
`show`: construct a fresh viewer and run `viewer.show(...)` on it. -/
def showFactoryNew (w : World) (host : String) (port : Option Nat) (wait : Bool) :
    World × Nat :=
  (viewerShowRun (newViewer w host port).1 (newViewer w host port).2 wait,
    (newViewer w host port).2)

/-- Module-level `show` from `viewer.py`: `viewer = None`; with an explicit
port the registry is scanned by `scanLoop`; `if not viewer: viewer =
Viewer(host, port)` (the `showFactoryNew` path); finally `viewer.show(...)`
runs and the viewer is returned. -/
def showFactory (w : World) (host : String) (port : Option Nat) (wait : Bool) :
    World × Nat :=
  match port with
  | none => showFactoryNew w host none wait
  | some p =>
    match scanLoop w p w.registry none with
    | some vid => (viewerShowRun w vid wait, vid)
    | none => showFactoryNew w host (some p) wait

/-- The port-lookup loop of module-level `close`: the first registered
viewer whose `port` equals `p`. -/
def findByPort (w : World) (p : Nat) : List Nat → Option Nat
  | [] => none
  | vid :: rest =>
    if ((w.getViewer vid).bind Viewer.port) = some p then some vid
    else findByPort w p rest

/-- Module-level `close` from `viewer.py`.  `port = none` stands for
`"last"`: `_VIEWERS[-1].close()`, with `IndexError` on an empty registry
converted to `ViewerNotFoundError`.  With a port, the first registered
viewer bound to it is closed, else `ViewerNotFoundError` is raised. -/
def closeFactory (w : World) (port : Option Nat) : Except String World :=
  match port with
  | none =>
    match w.registry.getLast? with
    | none => .error "ViewerNotFoundError: No active viewers found."
    | some vid => .ok (closeNow w vid)
  | some p =>
    match findByPort w p w.registry with
    | some vid => .ok (closeNow w vid)
    | none => .error "ViewerNotFoundError: no viewer found at the port"

/-- The world before any viewer exists. -/
def emptyWorld : World :=
  { allViewers := [], registry := [], nextVid := 0, nextEphemeral := 49152, stopLog := [] }

/-- The registry invariant (spec section 3 / 4.6): viewer identities are
allocated in strictly increasing creation order (hence distinct), all are
below the allocation counter, the registry has no duplicates, and every
registry member dereferences to a viewer owning a started server. -/
def WorldInv (w : World) : Prop :=
  List.Pairwise (fun u v => u.vid < v.vid) w.allViewers ∧
  (∀ v ∈ w.allViewers, v.vid < w.nextVid) ∧
  w.registry.Nodup ∧
  (∀ vid ∈ w.registry, ∃ v, w.getViewer vid = some v ∧
    ∃ s, v.server = some s ∧ s.started = true)

/-- A raw pyarrow cell of a HuggingFace column, modelled as a record
carrying the fields the source accesses: the `"bytes"` and `"path"` struct
fields read on `Audio`/`Image`/`dict` columns, and the scalar payload
returned as-is (`to_numpy`) on other columns. -/
structure HFCell where
  bytes : Option (List Nat)
  path : String
  scalar : Int
deriving DecidableEq, Repr

/-- The feature kinds `get_column_values` distinguishes by `isinstance`. -/
inductive HFFeatureKind where
  | audio
  | image
  | dictFeature
  | seq
  | other
deriving DecidableEq, Repr

/-- Embeds `HuggingfaceDataSource`: the wrapped dataset's columnar data
(`self._dataset.data[column_name]`) and features
(`self._dataset.features[column_name]`). -/
structure HuggingfaceDataSource where
  columns : String → List HFCell
  features : String → HFFeatureKind

/-- A Python `slice(start, stop, step)` object; `slice(None)` is
`⟨none, none, none⟩` and slice equality compares the three fields. -/
structure SliceArg where
  start : Option Int
  stop : Option Int
  step : Option Int
deriving DecidableEq, Repr

/-- The full slice `slice(None)`. -/
def hfFullSlice : SliceArg := { start := none, stop := none, step := none }

/-- The `indices` argument of `get_column_values`: a slice, or an explicit
index collection (list / integer ndarray). -/
inductive IndicesArg where
  | sliceIdx (s : SliceArg)
  | indexArray (idxs : List Nat)
deriving DecidableEq, Repr

/-- A value of the returned array: a path string or raw bytes (media and
dict columns) or the raw cell payload (everything else). -/
inductive HFOutValue where
  | pathVal (p : String)
  | bytesVal (b : List Nat)
  | rawVal (x : Int)
deriving DecidableEq, Repr

/-- The per-cell conversion after the raw values are gathered: for
`Audio`/`Image` features `value["path"].as_py() if value["bytes"].as_py()
is None else value["bytes"].as_py()`; for `dict` features
`value["bytes"].as_py()` (here `none` is a null byte payload, kept as an
empty byte string by `as_py` modelling); `Sequence` and all remaining
features return the raw payload via `to_numpy()`. -/
def convertCell (k : HFFeatureKind) (c : HFCell) : HFOutValue :=
  match k with
  | .audio | .image =>
    match c.bytes with
    | none => .pathVal c.path
    | some b => .bytesVal b
  | .dictFeature => .bytesVal (c.bytes.getD [])
  | .seq => .rawVal c.scalar
  | .other => .rawVal c.scalar

/-- Embeds `pyarrow.ChunkedArray.take`: gather the cells at the given indices;
an out-of-range index raises (`IndexError`). -/
def hfTake (cells : List HFCell) (idxs : List Nat) : Except String (List HFCell) :=
  idxs.mapM fun i =>
    match cells.get? i with
    | some c => Except.ok c
    | none => Except.error "IndexError"

/-- Embeds `HuggingfaceDataSource.get_column_values` from
`huggingface_datasource.py`: a slice argument equal to `slice(None)` reads
the whole column, any other slice hits `assert False` (the `TODO: handle
slices` branch); an index collection is gathered with `take`; the raw
values are then converted according to the column's feature. -/
def getColumnValues (ds : HuggingfaceDataSource) (col : String)
    (indices : IndicesArg) : Except String (List HFOutValue) :=
  let raw : Except String (List HFCell) :=
    match indices with
    | .sliceIdx s =>
      if s = hfFullSlice then Except.ok (ds.columns col)
      else Except.error "AssertionError"
    | .indexArray idxs => hfTake (ds.columns col) idxs
  match raw with
  | .error e => .error e
  | .ok cells => .ok (cells.map (convertCell (ds.features col)))

lemma cancelIfActive_id (n : String) (t : AnalysisTask) :
    (cancelIfActive n t).id = t.id := by
  unfold cancelIfActive; split <;> rfl

lemma cancelIfActive_name (n : String) (t : AnalysisTask) :
    (cancelIfActive n t).name = t.name := by
  unfold cancelIfActive; split <;> rfl

lemma broadcastMsg_issues (a : SpotlightApp) (m : IssuesMsg) :
    (a.broadcastMsg m).issues = a.issues := by
  cases h : a.websocketManager <;> simp [SpotlightApp.broadcastMsg, h]

lemma broadcastMsg_taskManager (a : SpotlightApp) (m : IssuesMsg) :
    (a.broadcastMsg m).taskManager = a.taskManager := by
  cases h : a.websocketManager <;> simp [SpotlightApp.broadcastMsg, h]

lemma broadcastMsg_errorLog (a : SpotlightApp) (m : IssuesMsg) :
    (a.broadcastMsg m).errorLog = a.errorLog := by
  cases h : a.websocketManager <;> simp [SpotlightApp.broadcastMsg, h]

lemma broadcastMsg_ws (a : SpotlightApp) (m : IssuesMsg) :
    (a.broadcastMsg m).websocketManager =
      a.websocketManager.map fun wm => wm.broadcast m := by
  cases h : a.websocketManager <;> simp [SpotlightApp.broadcastMsg, h]

lemma setDataSource_issues (a : SpotlightApp) (ds : Option DataSource) :
    (a.setDataSource ds).issues = [] := by
  cases ds <;>
    simp [SpotlightApp.setDataSource, SpotlightApp.updateIssues, broadcastMsg_issues]

lemma setDataSource_taskManager_none (a : SpotlightApp) :
    (a.setDataSource none).taskManager = a.taskManager := by
  simp [SpotlightApp.setDataSource, SpotlightApp.updateIssues, broadcastMsg_taskManager]

lemma setDataSource_tasks_some (a : SpotlightApp) (d : DataSource) :
    (a.setDataSource (some d)).taskManager.tasks =
      { id := a.taskManager.nextId, name := "update_issues", arg := (d, d.dtype),
        cancelled := false, done := false } ::
      a.taskManager.tasks.map (cancelIfActive "update_issues") := by
  simp [SpotlightApp.setDataSource, SpotlightApp.updateIssues, TaskManager.create_task,
    broadcastMsg_taskManager]

lemma setDataSource_nextId_some (a : SpotlightApp) (d : DataSource) :
    (a.setDataSource (some d)).taskManager.nextId = a.taskManager.nextId + 1 := by
  simp [SpotlightApp.setDataSource, SpotlightApp.updateIssues, TaskManager.create_task,
    broadcastMsg_taskManager]

lemma setDataSource_ws (a : SpotlightApp) (ds : Option DataSource) :
    (a.setDataSource ds).websocketManager =
      a.websocketManager.map fun wm => wm.broadcast { data := none } := by
  cases ds <;>
    simp [SpotlightApp.setDataSource, SpotlightApp.updateIssues, broadcastMsg_ws]

/-- The reachable-state invariant of the issue-analysis subsystem: task
ids strictly decrease along the (most recent first) task list and stay
below the id counter; every task is the `"update_issues"` one; any
non-terminal task is the most recently created one; a still-pending
latest task forces empty `issues`; and `issues` is empty or the complete
result of one finished, non-superseded task. -/
def AppInv (fi : DataSource × Nat → List Issue) (a : SpotlightApp) : Prop :=
  List.Pairwise (fun s t => t.id < s.id) a.taskManager.tasks ∧
  (∀ t ∈ a.taskManager.tasks, t.id < a.taskManager.nextId) ∧
  (∀ t ∈ a.taskManager.tasks, t.name = "update_issues") ∧
  (∀ t ∈ a.taskManager.tasks, t.done = false → t.cancelled = false →
    a.taskManager.tasks.head? = some t) ∧
  (∀ t, a.taskManager.tasks.head? = some t → t.done = false → a.issues = []) ∧
  (a.issues = [] ∨ ∃ t ∈ a.taskManager.tasks, t.done = true ∧ t.cancelled = false ∧
    a.issues = fi t.arg)

lemma appInv_init (fi : DataSource × Nat → List Issue) (wm : Option WebsocketMgr) :
    AppInv fi (initApp wm) := by
  refine ⟨?_, ?_, ?_, ?_, ?_, ?_⟩ <;> simp [initApp]

lemma appInv_set (fi : DataSource × Nat → List Issue) (a : SpotlightApp)
    (ds : Option DataSource) (h : AppInv fi a) : AppInv fi (a.setDataSource ds) := by
  obtain ⟨h1, h2, h3, h4, _, _⟩ := h
  cases ds with
  | none =>
    refine ⟨?_, ?_, ?_, ?_, ?_, ?_⟩
    · rw [setDataSource_taskManager_none]; exact h1
    · rw [setDataSource_taskManager_none]; exact h2
    · rw [setDataSource_taskManager_none]; exact h3
    · rw [setDataSource_taskManager_none]; exact h4
    · intro t _ _; exact setDataSource_issues a none
    · exact Or.inl (setDataSource_issues a none)
  | some d =>
    refine ⟨?_, ?_, ?_, ?_, ?_, ?_⟩
    · rw [setDataSource_tasks_some]
      refine List.pairwise_cons.mpr ⟨?_, ?_⟩
      · intro b hb
        obtain ⟨u, hu, rfl⟩ := List.mem_map.mp hb
        simpa [cancelIfActive_id] using h2 u hu
      · exact h1.map _ (fun s t hst => by simpa [cancelIfActive_id] using hst)
    · intro t ht
      rw [setDataSource_tasks_some] at ht
      rw [setDataSource_nextId_some]
      rcases List.mem_cons.mp ht with rfl | ht
      · exact Nat.lt_succ_self _
      · obtain ⟨u, hu, rfl⟩ := List.mem_map.mp ht
        have := h2 u hu
        simp only [cancelIfActive_id]
        omega
    · intro t ht
      rw [setDataSource_tasks_some] at ht
      rcases List.mem_cons.mp ht with rfl | ht
      · rfl
      · obtain ⟨u, hu, rfl⟩ := List.mem_map.mp ht
        rw [cancelIfActive_name]; exact h3 u hu
    · intro t ht hdone hcanc
      rw [setDataSource_tasks_some] at ht ⊢
      rcases List.mem_cons.mp ht with rfl | ht
      · rfl
      · obtain ⟨u, hu, rfl⟩ := List.mem_map.mp ht
        have hname := h3 u hu
        cases hu' : u.done with
        | true => simp [cancelIfActive, hu'] at hdone
        | false => simp [cancelIfActive, hname, hu'] at hcanc
    · intro t _ _; exact setDataSource_issues a (some d)
    · exact Or.inl (setDataSource_issues a (some d))

lemma findTask_mem (tm : TaskManager) (id : Nat) (t : AnalysisTask)
    (h : tm.findTask id = some t) : t ∈ tm.tasks :=
  List.mem_of_find?_eq_some h

lemma findTask_id (tm : TaskManager) (id : Nat) (t : AnalysisTask)
    (h : tm.findTask id = some t) : t.id = id := by
  have := List.find?_some h
  simpa using this

lemma stepApp_complete_eq (fi : DataSource × Nat → List Issue) (a : SpotlightApp)
    (id : Nat) (ok : Bool) (t : AnalysisTask)
    (hf : a.taskManager.findTask id = some t) (hd : t.done = false) :
    stepApp fi a (.complete id ok) =
      SpotlightApp.onIssuesReady { a with taskManager := a.taskManager.markDone id }
        (if t.cancelled then .cancelledErr else
          if ok then .ok (fi t.arg) else .failed id) := by
  simp only [stepApp]
  rw [hf]
  simp [hd]

lemma markDone_tasks (tm : TaskManager) (id : Nat) :
    (tm.markDone id).tasks =
      tm.tasks.map fun x => if x.id = id then { x with done := true } else x := rfl

lemma markDone_nextId (tm : TaskManager) (id : Nat) :
    (tm.markDone id).nextId = tm.nextId := rfl

lemma markDoneF_id (id : Nat) (x : AnalysisTask) :
    (if x.id = id then { x with done := true } else x).id = x.id := by
  split <;> rfl

lemma markDoneF_name (id : Nat) (x : AnalysisTask) :
    (if x.id = id then { x with done := true } else x).name = x.name := by
  split <;> rfl

lemma markDoneF_cancelled (id : Nat) (x : AnalysisTask) :
    (if x.id = id then { x with done := true } else x).cancelled = x.cancelled := by
  split <;> rfl

lemma markDoneF_arg (id : Nat) (x : AnalysisTask) :
    (if x.id = id then { x with done := true } else x).arg = x.arg := by
  split <;> rfl

lemma markDone_inv (a : SpotlightApp) (id : Nat)
    (h1 : List.Pairwise (fun s t => t.id < s.id) a.taskManager.tasks)
    (h2 : ∀ u ∈ a.taskManager.tasks, u.id < a.taskManager.nextId)
    (h3 : ∀ u ∈ a.taskManager.tasks, u.name = "update_issues")
    (h4 : ∀ u ∈ a.taskManager.tasks, u.done = false → u.cancelled = false →
      a.taskManager.tasks.head? = some u) :
    List.Pairwise (fun s t => t.id < s.id) (a.taskManager.markDone id).tasks ∧
    (∀ u ∈ (a.taskManager.markDone id).tasks, u.id < (a.taskManager.markDone id).nextId) ∧
    (∀ u ∈ (a.taskManager.markDone id).tasks, u.name = "update_issues") ∧
    (∀ u ∈ (a.taskManager.markDone id).tasks, u.done = false → u.cancelled = false →
      (a.taskManager.markDone id).tasks.head? = some u) := by
  refine ⟨?_, ?_, ?_, ?_⟩
  · rw [markDone_tasks]
    exact h1.map _ (fun s t hst => by simpa [markDoneF_id] using hst)
  · intro u hu
    rw [markDone_tasks] at hu
    rw [markDone_nextId]
    obtain ⟨v, hv, rfl⟩ := List.mem_map.mp hu
    simpa [markDoneF_id] using h2 v hv
  · intro u hu
    rw [markDone_tasks] at hu
    obtain ⟨v, hv, rfl⟩ := List.mem_map.mp hu
    rw [markDoneF_name]; exact h3 v hv
  · intro u hu hdone hcanc
    rw [markDone_tasks] at hu ⊢
    obtain ⟨v, hv, rfl⟩ := List.mem_map.mp hu
    by_cases hvid : v.id = id
    · simp [hvid] at hdone
    · rw [if_neg hvid] at hdone hcanc ⊢
      rw [List.head?_map, h4 v hv hdone hcanc]
      simp only [Option.map_some', if_neg hvid]

lemma appInv_complete (fi : DataSource × Nat → List Issue) (a : SpotlightApp)
    (id : Nat) (ok : Bool) (h : AppInv fi a) :
    AppInv fi (stepApp fi a (.complete id ok)) := by
  obtain ⟨h1, h2, h3, h4, h5, h6⟩ := h
  cases hf : a.taskManager.findTask id with
  | none =>
    simp only [stepApp, hf]
    exact ⟨h1, h2, h3, h4, h5, h6⟩
  | some t =>
    cases hdone : t.done with
    | true =>
      simp only [stepApp, hf, hdone, if_true]
      exact ⟨h1, h2, h3, h4, h5, h6⟩
    | false =>
      rw [stepApp_complete_eq fi a id ok t hf hdone]
      have htmem := findTask_mem _ _ _ hf
      have htid := findTask_id _ _ _ hf
      obtain ⟨p1, p2, p3, p4⟩ := markDone_inv a id h1 h2 h3 h4
      cases hc : t.cancelled with
      | true =>
        rw [if_pos rfl]
        simp only [SpotlightApp.onIssuesReady]
        refine ⟨p1, p2, p3, p4, ?_, ?_⟩
        · intro u hu hud
          show a.issues = []
          rw [markDone_tasks, List.head?_map] at hu
          cases hh : a.taskManager.tasks.head? with
          | none => rw [hh] at hu; exact absurd hu (by simp)
          | some v =>
            rw [hh, Option.map_some'] at hu
            obtain rfl := (Option.some.inj hu).symm
            by_cases hvid : v.id = id
            · simp [hvid] at hud
            · rw [if_neg hvid] at hud
              exact h5 v hh hud
        · show a.issues = [] ∨ _
          rcases h6 with hl | ⟨u, hu, hud, huc, heq⟩
          · exact Or.inl hl
          · refine Or.inr ⟨if u.id = id then { u with done := true } else u,
              ?_, ?_, ?_, ?_⟩
            · rw [markDone_tasks]; exact List.mem_map.mpr ⟨u, hu, rfl⟩
            · by_cases h' : u.id = id <;> simp [h', hud]
            · rw [markDoneF_cancelled]; exact huc
            · rw [markDoneF_arg]; exact heq
      | false =>
        rw [if_neg (by simp)]
        have hhead := h4 t htmem hdone hc
        have hempty := h5 t hhead hdone
        cases ok with
        | true =>
          rw [if_pos rfl]
          simp only [SpotlightApp.onIssuesReady]
          refine ⟨?_, ?_, ?_, ?_, ?_, ?_⟩
          · rw [broadcastMsg_taskManager]; exact p1
          · rw [broadcastMsg_taskManager]; exact p2
          · rw [broadcastMsg_taskManager]; exact p3
          · rw [broadcastMsg_taskManager]; exact p4
          · intro u hu hud
            rw [broadcastMsg_taskManager] at hu
            rw [markDone_tasks, List.head?_map, hhead, Option.map_some'] at hu
            obtain rfl := (Option.some.inj hu).symm
            simp [htid] at hud
          · refine Or.inr ⟨if t.id = id then { t with done := true } else t, ?_, ?_, ?_, ?_⟩
            · rw [broadcastMsg_taskManager, markDone_tasks]
              exact List.mem_map.mpr ⟨t, htmem, rfl⟩
            · rw [htid]; simp
            · rw [markDoneF_cancelled]; exact hc
            · rw [markDoneF_arg, broadcastMsg_issues]
        | false =>
          rw [if_neg (by simp)]
          simp only [SpotlightApp.onIssuesReady]
          exact ⟨p1, p2, p3, p4, fun u _ _ => hempty, Or.inl hempty⟩

lemma appInv_step (fi : DataSource × Nat → List Issue) (a : SpotlightApp)
    (e : AppEvent) (h : AppInv fi a) : AppInv fi (stepApp fi a e) := by
  cases e with
  | set ds => exact appInv_set fi a ds h
  | complete id ok => exact appInv_complete fi a id ok h

lemma appInv_run (fi : DataSource × Nat → List Issue) (a : SpotlightApp)
    (es : List AppEvent) (h : AppInv fi a) : AppInv fi (runApp fi a es) := by
  induction es generalizing a with
  | nil => exact h
  | cons e es ih =>
    simp only [runApp, List.foldl_cons]
    exact ih (stepApp fi a e) (appInv_step fi a e h)

lemma step_success_terminal (fi : DataSource × Nat → List Issue) (a : SpotlightApp)
    (id : Nat) (t : AnalysisTask) (hinv : AppInv fi a)
    (hf : a.taskManager.findTask id = some t)
    (hd : t.done = false) (hc : t.cancelled = false) :
    ∀ u ∈ (stepApp fi a (.complete id true)).taskManager.tasks,
      u.done = true ∨ u.cancelled = true := by
  obtain ⟨h1, h2, h3, h4, h5, h6⟩ := hinv
  rw [stepApp_complete_eq fi a id true t hf hd, if_neg (by simp [hc]), if_pos rfl]
  simp only [SpotlightApp.onIssuesReady]
  intro u hu
  rw [broadcastMsg_taskManager, markDone_tasks] at hu
  obtain ⟨x, hx, rfl⟩ := List.mem_map.mp hu
  by_cases hxi : x.id = id
  · left
    simp [hxi]
  · cases hxd : x.done with
    | true =>
      left
      simp [hxi, hxd]
    | false =>
      cases hxc : x.cancelled with
      | true =>
        right
        simp [hxi, hxc]
      | false =>
        have e1 := h4 x hx hxd hxc
        have e2 := h4 t (findTask_mem _ _ _ hf) hd hc
        rw [e1] at e2
        have hxt : x = t := Option.some.inj e2
        rw [hxt, findTask_id _ _ _ hf] at hxi
        exact absurd rfl hxi

lemma run_noset_issues (fi : DataSource × Nat → List Issue) :
    ∀ (es : List AppEvent) (a : SpotlightApp),
      (∀ ds, AppEvent.set ds ∉ es) →
      (∀ u ∈ a.taskManager.tasks, u.done = true ∨ u.cancelled = true) →
      (runApp fi a es).issues = a.issues
  | [], _, _, _ => rfl
  | e :: es, a, hns, hnt => by
    have hstep : (stepApp fi a e).issues = a.issues ∧
        (∀ u ∈ (stepApp fi a e).taskManager.tasks,
          u.done = true ∨ u.cancelled = true) := by
      cases e with
      | set ds => exact absurd (List.mem_cons_self _ _) (hns ds)
      | complete id ok =>
        cases hf : a.taskManager.findTask id with
        | none =>
          simp only [stepApp, hf]
          exact ⟨trivial, hnt⟩
        | some t =>
          cases hdone : t.done with
          | true =>
            simp only [stepApp, hf, hdone, if_true]
            exact ⟨trivial, hnt⟩
          | false =>
            have hc : t.cancelled = true := by
              rcases hnt t (findTask_mem _ _ _ hf) with h | h
              · rw [hdone] at h
                exact absurd h (by simp)
              · exact h
            rw [stepApp_complete_eq fi a id ok t hf hdone, if_pos hc]
            simp only [SpotlightApp.onIssuesReady]
            refine ⟨trivial, ?_⟩
            intro u hu
            rw [markDone_tasks] at hu
            obtain ⟨x, hx, rfl⟩ := List.mem_map.mp hu
            rcases hnt x hx with h | h
            · left
              by_cases hxi : x.id = id <;> simp [hxi, h]
            · right
              rw [markDoneF_cancelled]
              exact h
    have hrw : runApp fi a (e :: es) = runApp fi (stepApp fi a e) es := by
      simp [runApp, List.foldl_cons]
    rw [hrw, run_noset_issues fi es (stepApp fi a e)
      (fun ds hm => hns ds (List.mem_cons_of_mem _ hm)) hstep.2, hstep.1]

/-- C1: for every sequence of events driving one `SpotlightApp` from
startup (assignments to `data_source` interleaved with analysis-task
completions): the task list never holds two non-terminal tasks; a
still-pending latest task (head of the most-recent-first list) forces
empty `issues`; when the trace ends with the successful completion of a
task that was not superseded, `issues` is exactly that dataset's analysis
result; and `issues` is always either empty or the complete analysis
result of one finished, non-superseded task — never an interleaving of
two datasets' results. -/
theorem C1_final_issues_last_writer (fi : DataSource × Nat → List Issue)
    (wm : Option WebsocketMgr) (es : List AppEvent) :
    (∀ t1 ∈ (runApp fi (initApp wm) es).taskManager.tasks,
      ∀ t2 ∈ (runApp fi (initApp wm) es).taskManager.tasks,
        nonterminal t1 → nonterminal t2 → t1 = t2) ∧
    (∀ t, (runApp fi (initApp wm) es).taskManager.tasks.head? = some t →
      t.done = false → (runApp fi (initApp wm) es).issues = []) ∧
    (∀ es' id t es'', es = es' ++ AppEvent.complete id true :: es'' →
      (∀ ds, AppEvent.set ds ∉ es'') →
      (runApp fi (initApp wm) es').taskManager.findTask id = some t →
      t.done = false → t.cancelled = false →
      (runApp fi (initApp wm) es).issues = fi t.arg) ∧
    ((runApp fi (initApp wm) es).issues = [] ∨
      ∃ t ∈ (runApp fi (initApp wm) es).taskManager.tasks,
        t.done = true ∧ t.cancelled = false ∧
        (runApp fi (initApp wm) es).issues = fi t.arg) := by
  obtain ⟨h1, h2, h3, h4, h5, h6⟩ := appInv_run fi (initApp wm) es (appInv_init fi wm)
  refine ⟨?_, h5, ?_, h6⟩
  · intro t1 h1mem t2 h2mem hn1 hn2
    have e1 := h4 t1 h1mem hn1.1 hn1.2
    have e2 := h4 t2 h2mem hn2.1 hn2.2
    rw [e1] at e2
    exact Option.some.inj e2
  · intro es' id t es'' hes hns hf hd hc
    subst hes
    have hsplit : runApp fi (initApp wm) (es' ++ AppEvent.complete id true :: es'') =
        runApp fi
          (stepApp fi (runApp fi (initApp wm) es') (AppEvent.complete id true)) es'' := by
      simp [runApp, List.foldl_append, List.foldl_cons]
    rw [hsplit, run_noset_issues fi es'' _ hns
      (step_success_terminal fi _ id t (appInv_run fi (initApp wm) es' (appInv_init fi wm))
        hf hd hc)]
    rw [stepApp_complete_eq fi _ id true t hf hd, if_neg (by simp [hc]), if_pos rfl]
    simp only [SpotlightApp.onIssuesReady, broadcastMsg_issues]

/-- A concrete analysis function used by the witnesses. -/
def fiW : DataSource × Nat → List Issue := fun p => [p.1.uid, p.2]

/-- A concrete websocket manager with one connected channel. -/
def wmW : WebsocketMgr := { channels := [[]] }

/-- Witness for C1: a burst of two dataset assignments followed by both
completions ends with the second dataset's analysis result. -/
theorem C1_final_issues_last_writer_witness :
    (runApp fiW (initApp (some wmW))
      [.set (some ⟨1, 2⟩), .set (some ⟨3, 4⟩), .complete 0 true, .complete 1 true]).issues =
      fiW (⟨3, 4⟩, 4) := by
  have h := (C1_final_issues_last_writer fiW (some wmW)
    [.set (some ⟨1, 2⟩), .set (some ⟨3, 4⟩), .complete 0 true, .complete 1 true]).2.2.1
  exact h [.set (some ⟨1, 2⟩), .set (some ⟨3, 4⟩), .complete 0 true] 1
    { id := 1, name := "update_issues", arg := (⟨3, 4⟩, 4), cancelled := false, done := false }
    [] rfl (fun ds => List.not_mem_nil _) rfl rfl rfl

/-- C2: completing an analysis task in a reachable state: a cancelled
(superseded) task's result is never applied — issues, channels, error log
and data source are all unchanged; a successful task replaces `issues`
with its result and broadcasts an update to every connected channel
without touching the error log; a task failing for any other reason is
reported to the error sink, leaves `issues` empty, and broadcasts
nothing. -/
theorem C2_completion_callback (fi : DataSource × Nat → List Issue)
    (a : SpotlightApp) (id : Nat) (t : AnalysisTask)
    (hinv : AppInv fi a)
    (hfind : a.taskManager.findTask id = some t)
    (hpending : t.done = false) :
    (t.cancelled = true → ∀ ok,
      (stepApp fi a (.complete id ok)).issues = a.issues ∧
      (stepApp fi a (.complete id ok)).websocketManager = a.websocketManager ∧
      (stepApp fi a (.complete id ok)).errorLog = a.errorLog ∧
      (stepApp fi a (.complete id ok)).dataSource = a.dataSource) ∧
    (t.cancelled = false →
      (stepApp fi a (.complete id true)).issues = fi t.arg ∧
      (stepApp fi a (.complete id true)).websocketManager =
        a.websocketManager.map (fun wm => wm.broadcast { data := none }) ∧
      (stepApp fi a (.complete id true)).errorLog = a.errorLog ∧
      (stepApp fi a (.complete id false)).issues = [] ∧
      (stepApp fi a (.complete id false)).errorLog = a.errorLog ++ [id] ∧
      (stepApp fi a (.complete id false)).websocketManager = a.websocketManager) := by
  obtain ⟨h1, h2, h3, h4, h5, h6⟩ := hinv
  constructor
  · intro hc ok
    rw [stepApp_complete_eq fi a id ok t hfind hpending, if_pos hc]
    exact ⟨rfl, rfl, rfl, rfl⟩
  · intro hc
    have hempty := h5 t (h4 t (findTask_mem _ _ _ hfind) hpending hc) hpending
    refine ⟨?_, ?_, ?_, ?_, ?_, ?_⟩
    · rw [stepApp_complete_eq fi a id true t hfind hpending, if_neg (by simp [hc]),
        if_pos rfl]
      simp only [SpotlightApp.onIssuesReady, broadcastMsg_issues]
    · rw [stepApp_complete_eq fi a id true t hfind hpending, if_neg (by simp [hc]),
        if_pos rfl]
      simp only [SpotlightApp.onIssuesReady, broadcastMsg_ws]
    · rw [stepApp_complete_eq fi a id true t hfind hpending, if_neg (by simp [hc]),
        if_pos rfl]
      simp only [SpotlightApp.onIssuesReady, broadcastMsg_errorLog]
    · rw [stepApp_complete_eq fi a id false t hfind hpending, if_neg (by simp [hc]),
        if_neg (by simp)]
      simp only [SpotlightApp.onIssuesReady]
      exact hempty
    · rw [stepApp_complete_eq fi a id false t hfind hpending, if_neg (by simp [hc]),
        if_neg (by simp)]
      simp only [SpotlightApp.onIssuesReady]
    · rw [stepApp_complete_eq fi a id false t hfind hpending, if_neg (by simp [hc]),
        if_neg (by simp)]
      simp only [SpotlightApp.onIssuesReady]

/-- A concrete application state with one pending analysis task. -/
def appW : SpotlightApp := runApp fiW (initApp (some wmW)) [.set (some ⟨1, 2⟩)]

/-- Witness for C2 at the concrete state `appW`: success applies the
result, failure leaves issues empty and logs the task. -/
theorem C2_completion_callback_witness :
    (stepApp fiW appW (.complete 0 true)).issues = fiW (⟨1, 2⟩, 2) ∧
    (stepApp fiW appW (.complete 0 false)).issues = [] ∧
    (stepApp fiW appW (.complete 0 false)).errorLog = [0] := by
  have h := (C2_completion_callback fiW appW 0
      { id := 0, name := "update_issues", arg := (⟨1, 2⟩, 2), cancelled := false, done := false }
      (appInv_run fiW (initApp (some wmW)) [.set (some ⟨1, 2⟩)] (appInv_init fiW (some wmW)))
      rfl rfl).2 rfl
  exact ⟨h.1, h.2.2.2.1, by rw [h.2.2.2.2.1]; rfl⟩

/-- C4: assigning a data source to the application: the issues state is
cleared to empty; an issues-updated message with no data is delivered to
every channel of the websocket manager (if one is attached); assigning
`none` schedules no task and leaves the task manager untouched; assigning
a dataset pushes exactly one fresh pending task named `"update_issues"`
carrying the dataset and its dtype mapping (superseding any active prior
task). -/
theorem C4_assignment_effects (a : SpotlightApp) (ds : Option DataSource) :
    (a.setDataSource ds).issues = [] ∧
    (a.setDataSource ds).websocketManager =
      a.websocketManager.map (fun wm => wm.broadcast { data := none }) ∧
    (ds = none → (a.setDataSource ds).taskManager = a.taskManager) ∧
    (∀ d, ds = some d →
      (a.setDataSource ds).taskManager.tasks =
        { id := a.taskManager.nextId, name := "update_issues", arg := (d, d.dtype),
          cancelled := false, done := false } ::
        a.taskManager.tasks.map (cancelIfActive "update_issues")) := by
  refine ⟨setDataSource_issues a ds, setDataSource_ws a ds, ?_, ?_⟩
  · intro h
    subst h
    exact setDataSource_taskManager_none a
  · intro d h
    subst h
    exact setDataSource_tasks_some a d

/-- Witness for C4 at a concrete fresh application: assigning a dataset
clears issues and schedules exactly the one analysis task; assigning
`none` schedules nothing. -/
theorem C4_assignment_effects_witness :
    (SpotlightApp.setDataSource (initApp (some wmW)) (some ⟨1, 2⟩)).issues = [] ∧
    (SpotlightApp.setDataSource (initApp (some wmW)) (some ⟨1, 2⟩)).taskManager.tasks =
      [⟨0, "update_issues", (⟨1, 2⟩, 2), false, false⟩] ∧
    (SpotlightApp.setDataSource (initApp (some wmW)) none).taskManager =
      (initApp (some wmW)).taskManager := by
  refine ⟨(C4_assignment_effects (initApp (some wmW)) (some ⟨1, 2⟩)).1, ?_, ?_⟩
  · rw [(C4_assignment_effects (initApp (some wmW)) (some ⟨1, 2⟩)).2.2.2 ⟨1, 2⟩ rfl]
    rfl
  · exact (C4_assignment_effects (initApp (some wmW)) none).2.2.1 rfl

lemma find?_map_pred {α : Type} (g : α → α) (p : α → Bool) (hp : ∀ a, p (g a) = p a) :
    ∀ l : List α, (l.map g).find? p = (l.find? p).map g
  | [] => rfl
  | a :: l => by
    cases h : p a with
    | true => simp [List.find?, hp a, h]
    | false => simp [List.find?, hp a, h, find?_map_pred g p hp l]

lemma getViewer_setViewer (w : World) (vid y : Nat) (f : Viewer → Viewer)
    (hf : ∀ v, (f v).vid = v.vid) :
    (w.setViewer vid f).getViewer y =
      (w.getViewer y).map fun v => if v.vid = vid then f v else v := by
  unfold World.getViewer World.setViewer
  exact find?_map_pred _ _
    (fun v => by by_cases h : v.vid = vid <;> simp [h, hf]) w.allViewers

lemma getViewer_vid (w : World) (vid : Nat) (v : Viewer)
    (h : w.getViewer vid = some v) : v.vid = vid := by
  have := List.find?_some h
  simpa using this

lemma getViewer_newViewer (w : World) (host : String) (rp : Option Nat) (y : Nat)
    (v : Viewer) (h : w.getViewer y = some v) :
    (newViewer w host rp).1.getViewer y = some v := by
  unfold newViewer World.getViewer
  unfold World.getViewer at h
  rw [List.find?_append, h]
  rfl

lemma getViewer_bindPort (w : World) (rp y : Nat) :
    ((bindPort w rp).2).getViewer y = w.getViewer y := by
  unfold bindPort
  split <;> rfl

lemma worldInv_bindPort (w : World) (h : WorldInv w) (rp : Nat) :
    WorldInv (bindPort w rp).2 := by
  unfold bindPort
  split <;> exact h

lemma worldInv_setViewer_server (w : World) (h : WorldInv w) (vid : Nat) (srv : SrvState)
    (hs : srv.started = true) :
    WorldInv (w.setViewer vid fun u => { u with server := some srv }) := by
  obtain ⟨h1, h2, h3, h4⟩ := h
  refine ⟨?_, ?_, h3, ?_⟩
  · exact h1.map _ (fun a b hab => by
      by_cases ha : a.vid = vid <;> by_cases hb : b.vid = vid <;>
        simpa [ha, hb] using hab)
  · intro u hu
    obtain ⟨x, hx, rfl⟩ := List.mem_map.mp hu
    by_cases hxv : x.vid = vid <;> simpa [hxv] using h2 x hx
  · intro y hy
    obtain ⟨v, hgv, s, hsv, hst⟩ := h4 y hy
    rw [getViewer_setViewer w vid y (fun u => { u with server := some srv })
      (fun u => rfl), hgv, Option.map_some']
    by_cases hv : v.vid = vid
    · exact ⟨_, rfl, srv, by simp [hv], hs⟩
    · exact ⟨v, by simp [hv], s, hsv, hst⟩

lemma worldInv_registerViewer (w : World) (h : WorldInv w) (vid : Nat)
    (hv : ∃ v, w.getViewer vid = some v ∧ ∃ s, v.server = some s ∧ s.started = true) :
    WorldInv (registerViewer w vid) := by
  obtain ⟨h1, h2, h3, h4⟩ := h
  unfold registerViewer
  split
  · exact ⟨h1, h2, h3, h4⟩
  · next hnot =>
    refine ⟨h1, h2, ?_, ?_⟩
    · exact List.Nodup.append h3 (List.nodup_singleton vid)
        (fun a ha hb => hnot (by rwa [List.mem_singleton.mp hb] at ha))
    · intro y hy
      rcases List.mem_append.mp hy with hy | hy
      · exact h4 y hy
      · rw [List.mem_singleton.mp hy]
        exact hv

lemma worldInv_initServerGo (w : World) (h : WorldInv w) (vid : Nat) (v : Viewer)
    (hgv : w.getViewer vid = some v) : WorldInv (initServerGo w vid v) := by
  unfold initServerGo
  cases hsv : v.server with
  | some s => exact h
  | none =>
    refine worldInv_registerViewer _
      (worldInv_setViewer_server _ (worldInv_bindPort w h _) vid _ ?_) vid ?_
    · rfl
    · rw [getViewer_setViewer _ vid vid
        (fun u =>
          { u with server := some (startedServer
              (bindPort w (match v.requestedPort with | none => 0 | some p => p)).1) })
        (fun u => rfl), getViewer_bindPort, hgv, Option.map_some']
      have hvv : v.vid = vid := getViewer_vid w vid v hgv
      exact ⟨_, by rw [if_pos hvv], _, rfl, rfl⟩

lemma worldInv_initServer (w : World) (h : WorldInv w) (vid : Nat) :
    WorldInv (initServer w vid) := by
  unfold initServer
  cases hgv : w.getViewer vid with
  | none => exact h
  | some v => exact worldInv_initServerGo w h vid v hgv

lemma getViewer_registryUpdate (w : World) (r sl : List Nat) (y : Nat) :
    ({ w with registry := r, stopLog := sl } : World).getViewer y = w.getViewer y := rfl

lemma closeNow_eq (w : World) (vid : Nat) (v : Viewer) (s : SrvState)
    (hmem : vid ∈ w.registry) (hgv : w.getViewer vid = some v) (hsv : v.server = some s) :
    closeNow w vid =
      ({ w with
          registry := w.registry.erase vid
          stopLog := w.stopLog ++ [s.port] }).setViewer vid
        fun u => { u with server := none } := by
  unfold closeNow
  rw [if_pos hmem, hgv, Option.some_bind, hsv]

lemma closeNow_not_mem (w : World) (vid : Nat) (h : vid ∉ w.registry) :
    closeNow w vid = w := by
  unfold closeNow
  rw [if_neg h]

lemma closeNow_no_server (w : World) (vid : Nat)
    (h : (w.getViewer vid).bind Viewer.server = none) : closeNow w vid = w := by
  unfold closeNow
  split
  · rw [h]
  · rfl

lemma closeNow_registry (w : World) (vid : Nat) (v : Viewer) (s : SrvState)
    (hmem : vid ∈ w.registry) (hgv : w.getViewer vid = some v) (hsv : v.server = some s) :
    (closeNow w vid).registry = w.registry.erase vid := by
  rw [closeNow_eq w vid v s hmem hgv hsv]
  rfl

lemma closeNow_stopLog (w : World) (vid : Nat) (v : Viewer) (s : SrvState)
    (hmem : vid ∈ w.registry) (hgv : w.getViewer vid = some v) (hsv : v.server = some s) :
    (closeNow w vid).stopLog = w.stopLog ++ [s.port] := by
  rw [closeNow_eq w vid v s hmem hgv hsv]
  rfl

lemma closeNow_getViewer_self (w : World) (vid : Nat) (v : Viewer) (s : SrvState)
    (hmem : vid ∈ w.registry) (hgv : w.getViewer vid = some v) (hsv : v.server = some s) :
    (closeNow w vid).getViewer vid = some { v with server := none } := by
  rw [closeNow_eq w vid v s hmem hgv hsv,
    getViewer_setViewer _ vid vid (fun u => { u with server := none }) (fun u => rfl),
    getViewer_registryUpdate, hgv, Option.map_some',
    if_pos (getViewer_vid w vid v hgv)]

lemma worldInv_closeNow (w : World) (h : WorldInv w) (vid : Nat) :
    WorldInv (closeNow w vid) := by
  by_cases hmem : vid ∈ w.registry
  · cases hgv : w.getViewer vid with
    | none =>
      rw [closeNow_no_server w vid (by rw [hgv]; rfl)]
      exact h
    | some v =>
      cases hsv : v.server with
      | none =>
        rw [closeNow_no_server w vid (by rw [hgv, Option.some_bind, hsv])]
        exact h
      | some srv =>
        rw [closeNow_eq w vid v srv hmem hgv hsv]
        obtain ⟨h1, h2, h3, h4⟩ := h
        refine ⟨?_, ?_, ?_, ?_⟩
        · exact h1.map _ (fun a b hab => by
            by_cases ha : a.vid = vid <;> by_cases hb : b.vid = vid <;>
              simpa [ha, hb] using hab)
        · intro u hu
          obtain ⟨x, hx, rfl⟩ := List.mem_map.mp hu
          by_cases hxv : x.vid = vid <;> simpa [hxv] using h2 x hx
        · exact h3.erase vid
        · intro y hy
          have hy' := h3.mem_erase_iff.mp hy
          obtain ⟨v', hgv', s', hsv', hst'⟩ := h4 y hy'.2
          rw [getViewer_setViewer _ vid y (fun u => { u with server := none })
            (fun u => rfl), getViewer_registryUpdate, hgv', Option.map_some']
          have hvy : v'.vid = y := getViewer_vid w y v' hgv'
          rw [if_neg (by rw [hvy]; exact hy'.1)]
          exact ⟨v', rfl, s', hsv', hst'⟩
  · rw [closeNow_not_mem w vid hmem]
    exact h

lemma closeFull_not_mem (w : World) (vid : Nat) (wait intr : Bool)
    (h : vid ∉ w.registry) : closeFull w vid wait intr = (w, false) := by
  unfold closeFull
  rw [if_neg h]

lemma closeFull_interrupt (w : World) (vid : Nat) (v : Viewer) (s : SrvState)
    (hmem : vid ∈ w.registry) (hgv : w.getViewer vid = some v)
    (hsv : v.server = some s) :
    closeFull w vid true true = (closeNow w vid, true) := by
  unfold closeFull
  rw [if_pos hmem, hgv, Option.some_bind, hsv, if_pos ⟨rfl, rfl⟩]

lemma worldInv_closeFull (w : World) (h : WorldInv w) (vid : Nat) (wait intr : Bool) :
    WorldInv (closeFull w vid wait intr).1 := by
  by_cases hmem : vid ∈ w.registry
  · cases hgv : w.getViewer vid with
    | none =>
      unfold closeFull
      rw [if_pos hmem, hgv]
      exact h
    | some v =>
      cases hsv : v.server with
      | none =>
        unfold closeFull
        rw [if_pos hmem, hgv, Option.some_bind, hsv]
        exact h
      | some s =>
        unfold closeFull
        rw [if_pos hmem, hgv, Option.some_bind, hsv]
        show WorldInv ((if wait = true ∧ intr = true then (closeNow w vid, true)
          else (closeNow w vid, false)).1)
        split <;> exact worldInv_closeNow w h vid
  · rw [closeFull_not_mem w vid wait intr hmem]
    exact h

lemma worldInv_newViewer (w : World) (h : WorldInv w) (host : String)
    (rp : Option Nat) : WorldInv (newViewer w host rp).1 := by
  obtain ⟨h1, h2, h3, h4⟩ := h
  refine ⟨?_, ?_, h3, ?_⟩
  · refine List.pairwise_append.mpr ⟨h1, List.pairwise_singleton _ _, ?_⟩
    intro a ha b hb
    rw [List.mem_singleton.mp hb]
    exact h2 a ha
  · intro v hv
    rcases List.mem_append.mp hv with hv | hv
    · exact Nat.lt_succ_of_lt (h2 v hv)
    · rw [List.mem_singleton.mp hv]
      exact Nat.lt_succ_self _
  · intro y hy
    obtain ⟨v, hgv, s, hsv, hst⟩ := h4 y hy
    exact ⟨v, getViewer_newViewer w host rp y v hgv, s, hsv, hst⟩

lemma worldInv_initServerRun (w : World) (h : WorldInv w) (vid : Nat) (wait : Bool) :
    WorldInv (viewerShowRun w vid wait) := by
  unfold viewerShowRun
  cases wait with
  | true => exact worldInv_closeNow _ (worldInv_initServer w h vid) vid
  | false => exact worldInv_initServer w h vid

lemma worldInv_showFactory (w : World) (h : WorldInv w) (host : String)
    (port : Option Nat) (wait : Bool) : WorldInv (showFactory w host port wait).1 := by
  unfold showFactory
  cases port with
  | none =>
    exact worldInv_initServerRun _ (worldInv_newViewer w h host none) _ wait
  | some p =>
    show WorldInv ((match scanLoop w p w.registry none with
      | some vid => (viewerShowRun w vid wait, vid)
      | none => showFactoryNew w host (some p) wait).1)
    cases hs : scanLoop w p w.registry none with
    | some vid => exact worldInv_initServerRun w h vid wait
    | none => exact worldInv_initServerRun _ (worldInv_newViewer w h host (some p)) _ wait

lemma worldInv_closeFactory (w : World) (h : WorldInv w) (p : Option Nat) (w' : World)
    (hok : closeFactory w p = .ok w') : WorldInv w' := by
  unfold closeFactory at hok
  cases p with
  | none =>
    cases hl : w.registry.getLast? with
    | none =>
      simp only [hl] at hok
      exact Except.noConfusion hok
    | some vid =>
      simp only [hl] at hok
      obtain rfl := Except.ok.inj hok
      exact worldInv_closeNow w h vid
  | some pp =>
    cases hf : findByPort w pp w.registry with
    | none =>
      simp only [hf] at hok
      exact Except.noConfusion hok
    | some vid =>
      simp only [hf] at hok
      obtain rfl := Except.ok.inj hok
      exact worldInv_closeNow w h vid

lemma worldInv_empty : WorldInv emptyWorld := by
  refine ⟨?_, ?_, ?_, ?_⟩ <;> simp [emptyWorld]

lemma findByPort_none (w : World) (p : Nat) :
    ∀ l : List Nat, (∀ vid ∈ l, ((w.getViewer vid).bind Viewer.port) ≠ some p) →
      findByPort w p l = none
  | [], _ => rfl
  | vid :: rest, h => by
    unfold findByPort
    rw [if_neg (h vid (List.mem_cons_self vid rest))]
    exact findByPort_none w p rest fun u hu => h u (List.mem_cons_of_mem vid hu)

lemma findByPort_split (w : World) (p : Nat) :
    ∀ (l1 : List Nat) (vid : Nat) (l2 : List Nat),
      ((w.getViewer vid).bind Viewer.port) = some p →
      (∀ u ∈ l1, ((w.getViewer u).bind Viewer.port) ≠ some p) →
      findByPort w p (l1 ++ vid :: l2) = some vid
  | [], vid, l2, hp, _ => by
    rw [List.nil_append]
    unfold findByPort
    rw [if_pos hp]
  | u :: l1, vid, l2, hp, h => by
    rw [List.cons_append]
    unfold findByPort
    rw [if_neg (h u (List.mem_cons_self u l1))]
    exact findByPort_split w p l1 vid l2 hp fun x hx => h x (List.mem_cons_of_mem u hx)

/-- C3 (divergence witness): the explicit-port reuse rule is broken by the
loop-variable shadowing in module-level `show`.  With one viewer open on
port 5000, a call requesting port 5001 returns the existing viewer (still
bound to port 5000) and creates no new viewer, because after the
unsuccessful scan the Python variable `viewer` is left bound to the last
registry element and `if not viewer` sees it truthy.  The matching-port
reuse and the `port="auto"` fresh-viewer paths behave as specified. -/
theorem C3_explicit_port_reuse_bug :
    (showFactory (showFactory emptyWorld "127.0.0.1" (some 5000) false).1
      "127.0.0.1" (some 5001) false).2 = 0 ∧
    ((showFactory (showFactory emptyWorld "127.0.0.1" (some 5000) false).1
      "127.0.0.1" (some 5001) false).1).allViewers.length = 1 ∧
    ((((showFactory (showFactory emptyWorld "127.0.0.1" (some 5000) false).1
      "127.0.0.1" (some 5001) false).1).getViewer 0).bind Viewer.port = some 5000) ∧
    (showFactory (showFactory emptyWorld "127.0.0.1" (some 5000) false).1
      "127.0.0.1" (some 5000) false).2 = 0 ∧
    (showFactory (showFactory emptyWorld "127.0.0.1" (some 5000) false).1
      "127.0.0.1" none false).2 = 1 := by
  refine ⟨rfl, rfl, rfl, rfl, rfl⟩

/-- C5: closing a viewer: `close` is a no-op when the viewer is not
registered; a successful close removes the viewer from the registry (so
an immediate `viewers()` enumeration does not include it); the owned
server is stopped exactly once (observed on the stop log) and dropped;
and a second close is a no-op — no error, no second stop. -/
theorem C5_close_lifecycle (w : World) (hw : WorldInv w) :
    (∀ vid wait intr, vid ∉ w.registry → closeFull w vid wait intr = (w, false)) ∧
    (∀ vid, vid ∈ w.registry →
      vid ∉ (closeNow w vid).registry ∧ vid ∉ viewersFn (closeNow w vid)) ∧
    (∀ vid v s, vid ∈ w.registry → w.getViewer vid = some v → v.server = some s →
      (closeNow w vid).stopLog = w.stopLog ++ [s.port] ∧
      (closeNow w vid).getViewer vid = some { v with server := none }) ∧
    (∀ vid, closeNow (closeNow w vid) vid = closeNow w vid) := by
  obtain ⟨h1, h2, h3, h4⟩ := hw
  refine ⟨?_, ?_, ?_, ?_⟩
  · intro vid wait intr hvid
    exact closeFull_not_mem w vid wait intr hvid
  · intro vid hvid
    obtain ⟨v, hgv, s, hsv, _⟩ := h4 vid hvid
    have hreg := closeNow_registry w vid v s hvid hgv hsv
    constructor
    · rw [hreg]; exact h3.not_mem_erase
    · show vid ∉ (closeNow w vid).registry
      rw [hreg]; exact h3.not_mem_erase
  · intro vid v s hvid hgv hsv
    exact ⟨closeNow_stopLog w vid v s hvid hgv hsv,
      closeNow_getViewer_self w vid v s hvid hgv hsv⟩
  · intro vid
    by_cases hvid : vid ∈ w.registry
    · obtain ⟨v, hgv, s, hsv, _⟩ := h4 vid hvid
      apply closeNow_not_mem
      rw [closeNow_registry w vid v s hvid hgv hsv]
      exact h3.not_mem_erase
    · rw [closeNow_not_mem w vid hvid, closeNow_not_mem w vid hvid]

/-- The world with one viewer opened on port 5001 (used by witnesses). -/
def w5001 : World := (showFactory emptyWorld "127.0.0.1" (some 5001) false).1

lemma worldInv_w5001 : WorldInv w5001 :=
  worldInv_showFactory emptyWorld worldInv_empty "127.0.0.1" (some 5001) false

/-- Witness for C5: closing an unregistered viewer id is a no-op; closing
the open viewer removes it; closing it again changes nothing. -/
theorem C5_close_lifecycle_witness :
    closeFull w5001 1 false false = (w5001, false) ∧
    0 ∉ (closeNow w5001 0).registry ∧
    closeNow (closeNow w5001 0) 0 = closeNow w5001 0 := by
  have h := C5_close_lifecycle w5001 worldInv_w5001
  exact ⟨h.1 1 false false (by decide), (h.2.1 0 (by decide)).1, h.2.2.2 0⟩

/-- C6: module-level `close`: `close("last")` on an empty registry raises
`ViewerNotFoundError`; otherwise it closes the last-registered (most
recently created still-open) viewer; `close(port)` raises
`ViewerNotFoundError` when no registered viewer is bound to that port and
otherwise closes the first registered viewer bound to it. -/
theorem C6_close_factory (w : World) :
    (w.registry = [] →
      closeFactory w none = .error "ViewerNotFoundError: No active viewers found.") ∧
    (∀ rs vid, w.registry = rs ++ [vid] → closeFactory w none = .ok (closeNow w vid)) ∧
    (∀ p, (∀ vid ∈ w.registry, ((w.getViewer vid).bind Viewer.port) ≠ some p) →
      closeFactory w (some p) =
        .error "ViewerNotFoundError: no viewer found at the port") ∧
    (∀ p l1 vid l2, w.registry = l1 ++ vid :: l2 →
      ((w.getViewer vid).bind Viewer.port) = some p →
      (∀ u ∈ l1, ((w.getViewer u).bind Viewer.port) ≠ some p) →
      closeFactory w (some p) = .ok (closeNow w vid)) := by
  refine ⟨?_, ?_, ?_, ?_⟩
  · intro h
    unfold closeFactory
    rw [h]
    rfl
  · intro rs vid h
    unfold closeFactory
    rw [h, List.getLast?_concat]
  · intro p h
    unfold closeFactory
    show (match findByPort w p w.registry with
      | some v => Except.ok (closeNow w v)
      | none => Except.error "ViewerNotFoundError: no viewer found at the port") =
      Except.error "ViewerNotFoundError: no viewer found at the port"
    rw [findByPort_none w p w.registry h]
  · intro p l1 vid l2 h hp hmiss
    unfold closeFactory
    show (match findByPort w p w.registry with
      | some v => Except.ok (closeNow w v)
      | none => Except.error "ViewerNotFoundError: no viewer found at the port") =
      Except.ok (closeNow w vid)
    rw [h, findByPort_split w p l1 vid l2 hp hmiss]

/-- Witness for C6: an empty registry raises; with one open viewer,
`close("last")` closes it and a repeated `close("last")` raises again;
a port lookup misses on a wrong port and hits on the bound port. -/
theorem C6_close_factory_witness :
    closeFactory emptyWorld none =
      .error "ViewerNotFoundError: No active viewers found." ∧
    closeFactory w5001 none = .ok (closeNow w5001 0) ∧
    closeFactory (closeNow w5001 0) none =
      .error "ViewerNotFoundError: No active viewers found." ∧
    closeFactory w5001 (some 4000) =
      .error "ViewerNotFoundError: no viewer found at the port" ∧
    closeFactory w5001 (some 5001) = .ok (closeNow w5001 0) := by
  refine ⟨(C6_close_factory emptyWorld).1 rfl, ?_, ?_, ?_, ?_⟩
  · exact (C6_close_factory w5001).2.1 [] 0 rfl
  · exact (C6_close_factory (closeNow w5001 0)).1 (by decide)
  · exact (C6_close_factory w5001).2.2.1 4000 (by decide)
  · exact (C6_close_factory w5001).2.2.2 5001 [] 0 [] rfl (by decide) (by decide)

/-- C7: on a registered viewer, `close(wait=True)` interrupted during the
wait for client disconnect still force-closes before the interrupt
propagates: the result re-raises (second component `true`), the viewer is
no longer registered, and its server was stopped and dropped — no bound
port is left orphaned. -/
theorem C7_interrupted_close (w : World) (vid : Nat) (hw : WorldInv w)
    (hmem : vid ∈ w.registry) :
    closeFull w vid true true = (closeNow w vid, true) ∧
    vid ∉ (closeNow w vid).registry ∧
    ∃ v s, w.getViewer vid = some v ∧ v.server = some s ∧
      (closeNow w vid).stopLog = w.stopLog ++ [s.port] ∧
      (closeNow w vid).getViewer vid = some { v with server := none } := by
  obtain ⟨h1, h2, h3, h4⟩ := hw
  obtain ⟨v, hgv, s, hsv, _⟩ := h4 vid hmem
  refine ⟨closeFull_interrupt w vid v s hmem hgv hsv, ?_, v, s, hgv, hsv,
    closeNow_stopLog w vid v s hmem hgv hsv,
    closeNow_getViewer_self w vid v s hmem hgv hsv⟩
  rw [closeNow_registry w vid v s hmem hgv hsv]
  exact h3.not_mem_erase

/-- Witness for C7 on the one-viewer world: the interrupted blocking close
force-closes viewer 0 and re-raises. -/
theorem C7_interrupted_close_witness :
    closeFull w5001 0 true true = (closeNow w5001 0, true) ∧
    0 ∉ (closeNow w5001 0).registry := by
  have h := C7_interrupted_close w5001 0 worldInv_w5001 (by decide)
  exact ⟨h.1, h.2.1⟩

/-- C8: the registry invariant — distinct viewer identities, a
duplicate-free registry, and every registry member owning a started
server — is preserved by every lifecycle operation (viewer construction,
`_init_server`, `Viewer.show`, `Viewer.close` in all modes, module-level
`show` and module-level `close`), and a closed viewer is removed from the
registry synchronously. -/
theorem C8_registry_invariant (w : World) (hw : WorldInv w) :
    (∀ host rp, WorldInv (newViewer w host rp).1) ∧
    (∀ vid, WorldInv (initServer w vid)) ∧
    (∀ vid wait, WorldInv (viewerShowRun w vid wait)) ∧
    (∀ vid wait intr, WorldInv (closeFull w vid wait intr).1) ∧
    (∀ host port wait, WorldInv (showFactory w host port wait).1) ∧
    (∀ p w', closeFactory w p = .ok w' → WorldInv w') ∧
    (∀ vid, vid ∈ w.registry → vid ∉ (closeNow w vid).registry) := by
  refine ⟨fun host rp => worldInv_newViewer w hw host rp,
    fun vid => worldInv_initServer w hw vid,
    fun vid wait => worldInv_initServerRun w hw vid wait,
    fun vid wait intr => worldInv_closeFull w hw vid wait intr,
    fun host port wait => worldInv_showFactory w hw host port wait,
    fun p w' hok => worldInv_closeFactory w hw p w' hok, ?_⟩
  intro vid hmem
  obtain ⟨h1, h2, h3, h4⟩ := hw
  obtain ⟨v, hgv, s, hsv, _⟩ := h4 vid hmem
  rw [closeNow_registry w vid v s hmem hgv hsv]
  exact h3.not_mem_erase

/-- Witness for C8: the invariant holds after opening a viewer on the
empty world and after closing it again. -/
theorem C8_registry_invariant_witness :
    WorldInv (showFactory emptyWorld "127.0.0.1" (some 5001) false).1 ∧
    WorldInv (closeFull w5001 0 false false).1 := by
  have h := C8_registry_invariant emptyWorld worldInv_empty
  have h2 := C8_registry_invariant w5001 worldInv_w5001
  exact ⟨h.2.2.2.2.1 "127.0.0.1" (some 5001) false, h2.2.2.2.1 0 false false⟩

/-- C9: a viewer's public `port` is `None` exactly when it owns no server
(before the first `show`, and after a successful `close`, which resets
`_server` to `None`); with a server it is the server's bound port; and
`running` is `false` whenever no server is owned. -/
theorem C9_port_running (v : Viewer) :
    (Viewer.port v = none ↔ v.server = none) ∧
    (∀ s, v.server = some s → Viewer.port v = some s.port) ∧
    (v.server = none → Viewer.running v = false) := by
  refine ⟨?_, ?_, ?_⟩
  · cases h : v.server <;> simp [Viewer.port, h]
  · intro s hs
    simp [Viewer.port, hs]
  · intro h
    simp [Viewer.running, h]

/-- A freshly constructed viewer (before the first `show`). -/
def viewerW : Viewer :=
  { vid := 0, host := "127.0.0.1", requestedPort := none, server := none }

/-- Witness for C9 on a freshly constructed viewer: no server, hence
`port = none` and `running = false`. -/
theorem C9_port_running_witness :
    Viewer.port viewerW = none ∧ Viewer.running viewerW = false :=
  ⟨(C9_port_running viewerW).1.mpr rfl, (C9_port_running viewerW).2.2 rfl⟩

/-- C10: `get_column_values` on any slice other than the full slice
`slice(None)` fails the internal assertion (the unimplemented
`TODO: handle slices` branch) instead of returning values; the full slice
and explicit index collections are the supported access paths. -/
theorem C10_slice_assertion (ds : HuggingfaceDataSource) (col : String)
    (s : SliceArg) (hs : s ≠ hfFullSlice) :
    getColumnValues ds col (.sliceIdx s) = .error "AssertionError" ∧
    getColumnValues ds col (.sliceIdx hfFullSlice) =
      .ok ((ds.columns col).map (convertCell (ds.features col))) ∧
    (∀ idxs cells, hfTake (ds.columns col) idxs = .ok cells →
      getColumnValues ds col (.indexArray idxs) =
        .ok (cells.map (convertCell (ds.features col)))) := by
  refine ⟨?_, ?_, ?_⟩
  · simp [getColumnValues, hs]
  · simp [getColumnValues]
  · intro idxs cells h
    simp [getColumnValues, h]

/-- A concrete one-column dataset for the C10 witness. -/
def hfW : HuggingfaceDataSource :=
  { columns := fun _ => [{ bytes := none, path := "p", scalar := 7 }]
    features := fun _ => .other }

/-- Witness for C10: the partial slice `slice(0, None)` hits the
assertion; the full slice returns the converted column. -/
theorem C10_slice_assertion_witness :
    getColumnValues hfW "c" (.sliceIdx { start := some 0, stop := none, step := none }) =
      .error "AssertionError" ∧
    getColumnValues hfW "c" (.sliceIdx hfFullSlice) = .ok [.rawVal 7] := by
  have h := C10_slice_assertion hfW "c"
    { start := some 0, stop := none, step := none } (by decide)
  exact ⟨h.1, by rw [h.2.1]; rfl⟩
